import Mathlib

/-!
Verification of the NWS weather block (`src/blocks/weather/nws.rs`).

Shallow embedding of the normalization-and-aggregation engine of the NWS
weather provider: unit normalization, apparent-temperature wrapping, icon
classification, circular wind aggregation (`combine_forecasts`) and the
forecast pipeline (`Service::get_weather`, modelled here after the decode
step).  `f64` values are modelled as real numbers; the `f64::MIN` /
`f64::MAX` sentinels used by the min/max folds are embedded at their exact
real values.
-/

open Real

/-! ## Constants (lines 19–21 of the source) -/

noncomputable def MPH_TO_KMH : ℝ := 1.609344

noncomputable def MPH_TO_MS : ℝ := 1.609344 / 3.6

noncomputable def KMH_TO_MS : ℝ := 1.0 / 3.6

/-- Exact real value of `f64::MAX`. -/
noncomputable def F64_MAX : ℝ := (2 ^ 53 - 1) * 2 ^ 971

/-- Exact real value of `f64::MIN`. -/
noncomputable def F64_MIN : ℝ := -F64_MAX

/-! ## Real-number helpers mirroring `f64` methods -/

/-- `f64::to_radians`. -/
noncomputable def toRadians (x : ℝ) : ℝ := x * (π / 180)

/-- `f64::to_degrees`. -/
noncomputable def toDegrees (x : ℝ) : ℝ := x * (180 / π)

/-- `f64::hypot`. -/
noncomputable def hypot (x y : ℝ) : ℝ := Real.sqrt (x ^ 2 + y ^ 2)

/-- `f64::atan2`: `y.atan2 x` is the argument of the point `(x, y)`. -/
noncomputable def atan2 (y x : ℝ) : ℝ := Complex.arg ⟨x, y⟩

/-- `f64::rem_euclid` for a positive modulus. -/
noncomputable def remEuclid (x m : ℝ) : ℝ := x - m * ⌊x / m⌋

/-! ## Data model -/

/-- Contiguous-sublist test on character lists. -/
def hasInfix (needle : List Char) : List Char → Bool
  | [] => needle.isEmpty
  | c :: rest => needle.isPrefixOf (c :: rest) || hasInfix needle rest

/-- Rust `str::contains` (substring test). -/
def lcontains (hay needle : String) : Bool :=
  hasInfix needle.toList hay.toList

/-- Rust `str::to_lowercase`, character-wise (all matched keywords are ASCII). -/
def strLower (s : String) : String :=
  String.mk (s.data.map Char.toLower)

/-- Rust `str::ends_with` (suffix test). -/
def strEndsWith (s post : String) : Bool :=
  post.toList.isSuffixOf s.toList

inductive WeatherIcon where
  | Clear (is_night : Bool)
  | Clouds (is_night : Bool)
  | Fog (is_night : Bool)
  | Thunder (is_night : Bool)
  | Rain (is_night : Bool)
  | Snow
  | Default
deriving DecidableEq

structure ApiValue where
  value : ℝ
  unit_code : String

structure ApiForecast where
  is_daytime : Bool
  temperature : ApiValue
  relative_humidity : ApiValue
  wind_speed : ApiValue
  wind_direction : String
  short_forecast : String

structure WeatherMoment where
  icon : WeatherIcon
  weather : String
  weather_verbose : String
  temp : ℝ
  apparent : ℝ
  humidity : ℝ
  wind : ℝ
  wind_kmh : ℝ
  wind_direction : Option ℝ

structure ForecastAggregate where
  temp : ℝ
  apparent : ℝ
  humidity : ℝ
  wind : ℝ
  wind_kmh : ℝ
  wind_direction : Option ℝ

structure Forecast where
  avg : ForecastAggregate
  min : ForecastAggregate
  max : ForecastAggregate
  fin : WeatherMoment

structure WeatherResult where
  current_weather : WeatherMoment
  forecast : Option Forecast

/-! ## Icon classification (`short_forecast_to_icon`, lines 393–420) -/

def short_forecast_to_icon (weather : String) (is_night : Bool) : WeatherIcon :=
  let w := strLower weather
  if lcontains w ("snow") || lcontains w ("flurr") || lcontains w ("blizzard") then
    WeatherIcon.Snow
  else if lcontains w ("thunder") then
    WeatherIcon.Thunder is_night
  else if lcontains w ("fog") || lcontains w ("mist") then
    WeatherIcon.Fog is_night
  else if lcontains w ("rain") || lcontains w ("shower") || lcontains w ("drizzle") then
    WeatherIcon.Rain is_night
  else if lcontains w ("cloud") || lcontains w ("overcast") then
    WeatherIcon.Clouds is_night
  else if lcontains w ("clear") || lcontains w ("sunny") then
    WeatherIcon.Clear is_night
  else
    WeatherIcon.Default

/-! ## `ApiForecast` methods (lines 132–235) -/

/-- `ApiForecast::wind_direction` (lines 133–154): compass token to degrees. -/
noncomputable def ApiForecast.wind_direction_deg (f : ApiForecast) : Option ℝ :=
  (match f.wind_direction with
    | "N" => some 0
    | "NNE" => some 1
    | "NE" => some 2
    | "ENE" => some 3
    | "E" => some 4
    | "ESE" => some 5
    | "SE" => some 6
    | "SSE" => some 7
    | "S" => some 8
    | "SSW" => some 9
    | "SW" => some 10
    | "WSW" => some 11
    | "W" => some 12
    | "WNW" => some 13
    | "NW" => some 14
    | "NNW" => some 15
    | _ => none : Option ℕ).map (fun dir => (dir : ℝ) * (360.0 / 16.0))

def ApiForecast.icon_to_word (icon : WeatherIcon) : String :=
  match icon with
  | WeatherIcon.Clear _ => "Clear"
  | WeatherIcon.Clouds _ => "Clouds"
  | WeatherIcon.Fog _ => "Fog"
  | WeatherIcon.Thunder _ => "Thunder"
  | WeatherIcon.Rain _ => "Rain"
  | WeatherIcon.Snow => "Snow"
  | WeatherIcon.Default => "Unknown"

noncomputable def ApiForecast.wind_speed_kmh (f : ApiForecast) : ℝ :=
  if strEndsWith f.wind_speed.unit_code ("km_h-1") then
    f.wind_speed.value
  else
    f.wind_speed.value * MPH_TO_KMH

noncomputable def ApiForecast.wind_speed_local_units (f : ApiForecast) : ℝ :=
  if strEndsWith f.wind_speed.unit_code ("km_h-1") then
    f.wind_speed.value * KMH_TO_MS
  else
    f.wind_speed.value

noncomputable def ApiForecast.wind_speed_ms (f : ApiForecast) : ℝ :=
  if strEndsWith f.wind_speed.unit_code ("km_h-1") then
    f.wind_speed.value * KMH_TO_MS
  else
    f.wind_speed.value * MPH_TO_MS

/-- Modelled from the spec: `australian_apparent_temp` lives outside the given
source file (`src/blocks/weather.rs`); per §4.2 it is the Australian Bureau of
Meteorology apparent-temperature approximation, computing water-vapor pressure
from temperature and relative humidity via an exponential-saturation formula
and combining it with dry-bulb temperature and wind speed. -/
noncomputable def australian_apparent_temp (temp humidity wind_speed : ℝ) : ℝ :=
  let e := (humidity / 100) * 6.105 * Real.exp (17.27 * temp / (237.7 + temp))
  temp + 0.33 * e - 0.70 * wind_speed - 4.00

/-- `ApiForecast::apparent_temp` (lines 193–207). -/
noncomputable def ApiForecast.apparent_temp (f : ApiForecast) : ℝ :=
  let temp :=
    if strEndsWith f.temperature.unit_code ("degC") then
      f.temperature.value
    else
      (f.temperature.value - 32.0) * 5.0 / 9.0
  let humidity := f.relative_humidity.value
  let wind_speed := f.wind_speed_ms
  let apparent := australian_apparent_temp temp humidity wind_speed
  if strEndsWith f.temperature.unit_code ("degC") then
    apparent
  else
    apparent * 9.0 / 5.0 + 32.0

/-- `ApiForecast::to_moment` (lines 209–223). -/
noncomputable def ApiForecast.to_moment (f : ApiForecast) : WeatherMoment :=
  let icon := short_forecast_to_icon f.short_forecast (!f.is_daytime)
  { icon := icon
    weather := ApiForecast.icon_to_word icon
    weather_verbose := f.short_forecast
    temp := f.temperature.value
    apparent := f.apparent_temp
    humidity := f.relative_humidity.value
    wind := f.wind_speed_local_units
    wind_kmh := f.wind_speed_kmh
    wind_direction := f.wind_direction_deg }

/-- `ApiForecast::to_aggregate` (lines 225–234). -/
noncomputable def ApiForecast.to_aggregate (f : ApiForecast) : ForecastAggregate :=
  { temp := f.temperature.value
    apparent := f.apparent_temp
    humidity := f.relative_humidity.value
    wind := f.wind_speed_local_units
    wind_kmh := f.wind_speed_kmh
    wind_direction := f.wind_direction_deg }

/-! ## Circular aggregation (`combine_forecasts`, lines 237–319) -/

/-- Loop state of `combine_forecasts` (the local mutable variables). -/
structure CombineState where
  temp : ℝ
  apparent : ℝ
  humidity : ℝ
  wind_north : ℝ
  wind_east : ℝ
  wind_kmh_north : ℝ
  wind_kmh_east : ℝ
  wind_count : ℝ
  max : ForecastAggregate
  min : ForecastAggregate

/-- The `// Max` block of the loop body (lines 276–284). -/
noncomputable def maxStep (acc val : ForecastAggregate) : ForecastAggregate :=
  let acc :=
    { acc with
        temp := Max.max acc.temp val.temp
        apparent := Max.max acc.apparent val.apparent
        humidity := Max.max acc.humidity val.humidity }
  if val.wind > acc.wind then
    { acc with
        wind_direction := val.wind_direction
        wind := val.wind
        wind_kmh := val.wind_kmh }
  else
    acc

/-- The `// Min` block of the loop body (lines 286–294). -/
noncomputable def minStep (acc val : ForecastAggregate) : ForecastAggregate :=
  let acc :=
    { acc with
        temp := Min.min acc.temp val.temp
        apparent := Min.min acc.apparent val.apparent
        humidity := Min.min acc.humidity val.humidity }
  if val.wind < acc.wind then
    { acc with
        wind_direction := val.wind_direction
        wind := val.wind
        wind_kmh := val.wind_kmh }
  else
    acc

/-- Wind-vector contributions of one sample (`if let Some(degrees) = ...`,
lines 267–274); a sample without resolvable direction contributes nothing. -/
noncomputable def dirNorth (v : ForecastAggregate) : ℝ :=
  match v.wind_direction with
  | some degrees => v.wind * Real.cos (toRadians degrees)
  | none => 0

noncomputable def dirEast (v : ForecastAggregate) : ℝ :=
  match v.wind_direction with
  | some degrees => v.wind * Real.sin (toRadians degrees)
  | none => 0

noncomputable def dirNorthKmh (v : ForecastAggregate) : ℝ :=
  match v.wind_direction with
  | some degrees => v.wind_kmh * Real.cos (toRadians degrees)
  | none => 0

noncomputable def dirEastKmh (v : ForecastAggregate) : ℝ :=
  match v.wind_direction with
  | some degrees => v.wind_kmh * Real.sin (toRadians degrees)
  | none => 0

noncomputable def dirCountTerm (v : ForecastAggregate) : ℝ :=
  match v.wind_direction with
  | some _ => 1
  | none => 0

/-- One iteration of the `for val in data` loop (lines 262–295). -/
noncomputable def combineStep (s : CombineState) (val : ForecastAggregate) : CombineState :=
  { temp := s.temp + val.temp
    apparent := s.apparent + val.apparent
    humidity := s.humidity + val.humidity
    wind_north := s.wind_north + dirNorth val
    wind_east := s.wind_east + dirEast val
    wind_kmh_north := s.wind_kmh_north + dirNorthKmh val
    wind_kmh_east := s.wind_kmh_east + dirEastKmh val
    wind_count := s.wind_count + dirCountTerm val
    max := maxStep s.max val
    min := minStep s.min val }

/-- Initial loop state (lines 238–261): zero sums and sentinel extremes. -/
noncomputable def combineInit : CombineState :=
  { temp := 0
    apparent := 0
    humidity := 0
    wind_north := 0
    wind_east := 0
    wind_kmh_north := 0
    wind_kmh_east := 0
    wind_count := 0
    max :=
      { temp := F64_MIN
        apparent := F64_MIN
        humidity := F64_MIN
        wind := F64_MIN
        wind_kmh := F64_MIN
        wind_direction := none }
    min :=
      { temp := F64_MAX
        apparent := F64_MAX
        humidity := F64_MAX
        wind := F64_MAX
        wind_kmh := F64_MAX
        wind_direction := none } }

open scoped Classical in
/-- `combine_forecasts` (lines 237–319). -/
noncomputable def combine_forecasts (data : List ForecastAggregate) (fin : WeatherMoment) :
    Forecast :=
  let s := data.foldl combineStep combineInit
  let count : ℝ := data.length
  let wres : ℝ × ℝ × Option ℝ :=
    if s.wind_count = 0 then
      (0, 0, none)
    else
      (hypot s.wind_east s.wind_north / s.wind_count,
        hypot s.wind_kmh_east s.wind_kmh_north / s.wind_count,
        some (remEuclid (toDegrees (atan2 s.wind_east s.wind_north)) 360))
  let avg : ForecastAggregate :=
    { temp := s.temp / count
      apparent := s.apparent / count
      humidity := s.humidity / count
      wind := wres.1
      wind_kmh := wres.2.1
      wind_direction := wres.2.2 }
  { avg := avg, min := s.min, max := s.max, fin := fin }

/-! ## Forecast pipeline (`Service::get_weather`, lines 323–385), modelled
after the decode step: the decoded period list is the input. -/

/-- `Service::get_weather` after JSON decoding (lines 354–384).  `none`
models a surfaced error. -/
noncomputable def get_weather (forecast_hours : ℕ) (need_forecast : Bool)
    (data : List ApiForecast) : Option WeatherResult :=
  match data.head? with
  | none => none
  | some current =>
    let current_weather := current.to_moment
    if !need_forecast then
      some { current_weather := current_weather, forecast := none }
    else
      let data_agg : List ForecastAggregate :=
        (data.take forecast_hours).map ApiForecast.to_aggregate
      match (data.get? (Min.min forecast_hours (data.length - 1))).map
          ApiForecast.to_moment with
      | none => none
      | some fin =>
        some { current_weather := current_weather
               forecast := some (combine_forecasts data_agg fin) }

/-! ## Spec-side definitions (for refinement-style claims) -/

/-- The 16-point compass rose of the spec, clockwise from N. -/
def compass16 : List String :=
  ["N", "NNE", "NE", "ENE", "E", "ESE", "SE", "SSE",
   "S", "SSW", "SW", "WSW", "W", "WNW", "NW", "NNW"]

/-- Index of the first occurrence of `tok`, if any. -/
def idxOf (tok : String) : List String → Option ℕ
  | [] => none
  | t :: rest => if tok = t then some 0 else (idxOf tok rest).map (· + 1)

/-- Spec §4.4: bearing token to degrees, 22.5° increments from N, unrecognized
tokens yield no resolvable direction. -/
noncomputable def bearingSpec (tok : String) : Option ℝ :=
  (idxOf tok compass16).map (fun i => (i : ℝ) * 22.5)

/-- Spec §4.3 / §9: the classifier as an explicit ordered list of
(keywords, icon) rules, evaluated top to bottom. -/
def iconRules (is_night : Bool) : List (List String × WeatherIcon) :=
  [(["snow", "flurr", "blizzard"], WeatherIcon.Snow),
   (["thunder"], WeatherIcon.Thunder is_night),
   (["fog", "mist"], WeatherIcon.Fog is_night),
   (["rain", "shower", "drizzle"], WeatherIcon.Rain is_night),
   (["cloud", "overcast"], WeatherIcon.Clouds is_night),
   (["clear", "sunny"], WeatherIcon.Clear is_night)]

/-- First rule whose keyword list has a match; `Default` if none does. -/
def firstMatch (w : String) : List (List String × WeatherIcon) → WeatherIcon
  | [] => WeatherIcon.Default
  | r :: rest => if r.1.any (fun k => lcontains w k) then r.2 else firstMatch w rest

/-- Spec §4.3 `classify`: case-insensitive ordered substring matching. -/
def classifySpec (text : String) (is_night : Bool) : WeatherIcon :=
  firstMatch (strLower text) (iconRules is_night)

/-! ## Claim C4: icon classification -/

/-- C4. For every text string and day/night flag, icon classification is a
case-insensitive substring search evaluated in the fixed priority order
snow/flurr/blizzard → Snow (night flag ignored), then thunder → Thunder, then
fog/mist → Fog, then rain/shower/drizzle → Rain, then cloud/overcast → Clouds,
then clear/sunny → Clear, otherwise Default, with the first match winning; in
particular `classify("Rain and Fog", false) = Fog{false}`,
`classify("Chance Snow Showers", true) = Snow`,
`classify("Mostly Sunny", false) = Clear{false}` and
`classify("Partly Cloudy", true) = Clouds{true}`. -/
theorem short_forecast_to_icon_spec :
    (∀ (s : String) (n : Bool), short_forecast_to_icon s n = classifySpec s n) ∧
    short_forecast_to_icon ("Rain and Fog") false = WeatherIcon.Fog false ∧
    short_forecast_to_icon ("Chance Snow Showers") true = WeatherIcon.Snow ∧
    short_forecast_to_icon ("Mostly Sunny") false = WeatherIcon.Clear false ∧
    short_forecast_to_icon ("Partly Cloudy") true = WeatherIcon.Clouds true := by
  refine ⟨fun s n => ?_, by decide, by decide, by decide, by decide⟩
  simp only [short_forecast_to_icon, classifySpec, iconRules, firstMatch,
    List.any_cons, List.any_nil, Bool.or_false]
  split_ifs <;> simp_all

/-! ## Claim C9: bearing-to-degrees mapping -/

/-- C9. For every sample, the bearing-to-degrees mapping follows the
16-point compass at 22.5° increments starting at 0° = N and proceeding
clockwise, and any token outside those 16 yields `none` (no resolvable
direction, never silently 0°/North). -/
theorem wind_direction_matches_compass (f : ApiForecast) :
    f.wind_direction_deg = bearingSpec f.wind_direction := by
  rw [ApiForecast.wind_direction_deg, bearingSpec]
  split <;> simp_all [idxOf, compass16] <;> norm_num

/-! ## Concrete samples used by witnesses and counterexamples -/

/-- A metric-configuration sample: SI unit codes (query `?units=si`). -/
noncomputable def sampleSi : ApiForecast :=
  { is_daytime := true
    temperature := { value := 20, unit_code := "wmoUnit:degC" }
    relative_humidity := { value := 50, unit_code := "wmoUnit:percent" }
    wind_speed := { value := 36, unit_code := "wmoUnit:km_h-1" }
    wind_direction := "N"
    short_forecast := "Sunny" }

/-- An imperial-configuration sample: US unit codes (query `?units=us`). -/
noncomputable def sampleUs : ApiForecast :=
  { is_daytime := false
    temperature := { value := 68, unit_code := "wmoUnit:degF" }
    relative_humidity := { value := 40, unit_code := "wmoUnit:percent" }
    wind_speed := { value := 10, unit_code := "wmoUnit:mi_h-1" }
    wind_direction := "XYZ"
    short_forecast := "Partly Cloudy" }

/-! ## Claim C5: wind-speed unit normalization -/

/-- C5 counterexample. The claim says the local-units value is
kilometers/hour when the configuration is metric.  With the metric (SI)
configuration the API tags wind speed `km_h-1`; for a 36 km/h reading the
reference km/h value is 36, but the local-units value is 10 (meters/second),
not the kilometers/hour value. -/
theorem wind_speed_local_units_not_kmh :
    sampleSi.wind_speed_kmh = 36 ∧ sampleSi.wind_speed_local_units = 10 ∧
    sampleSi.wind_speed_local_units ≠ sampleSi.wind_speed_kmh := by
  have h : strEndsWith ("wmoUnit:km_h-1") ("km_h-1") = true := by decide
  refine ⟨?_, ?_, ?_⟩ <;>
    norm_num [ApiForecast.wind_speed_kmh, ApiForecast.wind_speed_local_units,
      sampleSi, h, KMH_TO_MS]

/-- C5 (amended). For every wind-speed value tagged with a unit code, the
normalizer returns (a) a local-units value that is meters/second when the unit
code ends with `km_h-1` (the metric/SI configuration), obtained by dividing
km/h by 3.6, and the raw miles/hour value otherwise (the imperial
configuration), and (b) a reference value in km/h, using the constants
1 mph = 1.609344 km/h and km/h → m/s = divide by 3.6, with unrecognized unit
codes defaulting to the non-SI branch. -/
theorem wind_speed_units_consistent (f : ApiForecast) :
    (strEndsWith f.wind_speed.unit_code ("km_h-1") = true →
      f.wind_speed_local_units = f.wind_speed.value * KMH_TO_MS ∧
      f.wind_speed_kmh = f.wind_speed.value ∧
      f.wind_speed_kmh = f.wind_speed_local_units * 3.6) ∧
    (strEndsWith f.wind_speed.unit_code ("km_h-1") = false →
      f.wind_speed_local_units = f.wind_speed.value ∧
      f.wind_speed_kmh = f.wind_speed_local_units * MPH_TO_KMH) ∧
    f.wind_speed_ms = f.wind_speed_kmh / 3.6 := by
  refine ⟨fun h => ?_, fun h => ?_, ?_⟩
  · simp only [ApiForecast.wind_speed_local_units, ApiForecast.wind_speed_kmh, h, if_true]
    norm_num [KMH_TO_MS]
    ring
  · constructor
    · simp [ApiForecast.wind_speed_local_units, h]
    · simp [ApiForecast.wind_speed_local_units, ApiForecast.wind_speed_kmh, h]
  · by_cases h : strEndsWith f.wind_speed.unit_code ("km_h-1") = true
    · simp only [ApiForecast.wind_speed_ms, ApiForecast.wind_speed_kmh, h, if_true]
      norm_num [KMH_TO_MS]
      ring
    · simp only [ApiForecast.wind_speed_ms, ApiForecast.wind_speed_kmh, h, if_false]
      norm_num [MPH_TO_MS, MPH_TO_KMH]
      ring

/-- Witness for C5 (amended): both unit branches at concrete samples. -/
theorem wind_speed_units_consistent_witness :
    sampleSi.wind_speed_kmh = sampleSi.wind_speed_local_units * 3.6 ∧
    sampleUs.wind_speed_kmh = sampleUs.wind_speed_local_units * MPH_TO_KMH :=
  ⟨((wind_speed_units_consistent sampleSi).1 (by decide)).2.2,
   ((wind_speed_units_consistent sampleUs).2.1 (by decide)).2⟩

/-! ## Claim C10: temperature-like fields stay in the source's unit -/

/-- C10. For every forecast sample, the WeatherMoment and the
ForecastAggregate report temperature and humidity as the raw source values
without unit conversion, and the apparent temperature is computed by
converting the source temperature to Celsius when its unit code does not end
in `degC`, applying the Australian formula on the m/s wind speed, and
converting the result back into the source's unit (`× 9/5 + 32` for
non-Celsius sources) — all temperature-like outputs remain in the source's
unit. -/
theorem moment_fields_stay_in_source_units (f : ApiForecast) :
    f.to_moment.temp = f.temperature.value ∧
    f.to_moment.humidity = f.relative_humidity.value ∧
    f.to_aggregate.temp = f.temperature.value ∧
    f.to_aggregate.humidity = f.relative_humidity.value ∧
    f.to_moment.apparent = f.apparent_temp ∧
    f.to_aggregate.apparent = f.apparent_temp ∧
    (strEndsWith f.temperature.unit_code ("degC") = true →
      f.apparent_temp =
        australian_apparent_temp f.temperature.value f.relative_humidity.value
          f.wind_speed_ms) ∧
    (strEndsWith f.temperature.unit_code ("degC") = false →
      f.apparent_temp =
        australian_apparent_temp ((f.temperature.value - 32.0) * 5.0 / 9.0)
          f.relative_humidity.value f.wind_speed_ms * 9.0 / 5.0 + 32.0) := by
  refine ⟨rfl, rfl, rfl, rfl, rfl, rfl, fun h => ?_, fun h => ?_⟩ <;>
    simp [ApiForecast.apparent_temp, h]

/-- Witness for C10: both temperature-unit branches at concrete samples. -/
theorem moment_fields_stay_in_source_units_witness :
    sampleSi.apparent_temp =
      australian_apparent_temp sampleSi.temperature.value
        sampleSi.relative_humidity.value sampleSi.wind_speed_ms ∧
    sampleUs.apparent_temp =
      australian_apparent_temp ((sampleUs.temperature.value - 32.0) * 5.0 / 9.0)
        sampleUs.relative_humidity.value sampleUs.wind_speed_ms * 9.0 / 5.0 + 32.0 :=
  ⟨(moment_fields_stay_in_source_units sampleSi).2.2.2.2.2.2.1 (by decide),
   (moment_fields_stay_in_source_units sampleUs).2.2.2.2.2.2.2 (by decide)⟩

/-! ## Characterizing the aggregation fold -/

noncomputable def sumBy (g : ForecastAggregate → ℝ) (l : List ForecastAggregate) : ℝ :=
  (l.map g).sum

lemma foldl_combineStep_spec (l : List ForecastAggregate) (s : CombineState) :
    (l.foldl combineStep s).temp = s.temp + sumBy (fun v => v.temp) l ∧
    (l.foldl combineStep s).apparent = s.apparent + sumBy (fun v => v.apparent) l ∧
    (l.foldl combineStep s).humidity = s.humidity + sumBy (fun v => v.humidity) l ∧
    (l.foldl combineStep s).wind_north = s.wind_north + sumBy dirNorth l ∧
    (l.foldl combineStep s).wind_east = s.wind_east + sumBy dirEast l ∧
    (l.foldl combineStep s).wind_kmh_north = s.wind_kmh_north + sumBy dirNorthKmh l ∧
    (l.foldl combineStep s).wind_kmh_east = s.wind_kmh_east + sumBy dirEastKmh l ∧
    (l.foldl combineStep s).wind_count = s.wind_count + sumBy dirCountTerm l ∧
    (l.foldl combineStep s).max = l.foldl maxStep s.max ∧
    (l.foldl combineStep s).min = l.foldl minStep s.min := by
  induction l generalizing s with
  | nil => simp [sumBy]
  | cons v rest ih =>
    simp only [List.foldl_cons]
    obtain ⟨h1, h2, h3, h4, h5, h6, h7, h8, h9, h10⟩ := ih (combineStep s v)
    refine ⟨?_, ?_, ?_, ?_, ?_, ?_, ?_, ?_, ?_, ?_⟩ <;>
      simp only [h1, h2, h3, h4, h5, h6, h7, h8, h9, h10] <;>
      simp [combineStep, sumBy] <;> ring

noncomputable def aggNoDir : ForecastAggregate :=
  { temp := 15, apparent := 14, humidity := 60, wind := 5, wind_kmh := 8,
    wind_direction := none }

noncomputable def aggEast : ForecastAggregate :=
  { temp := 20, apparent := 21, humidity := 50, wind := 5, wind_kmh := 18,
    wind_direction := some 90 }

noncomputable def aggZeroWind : ForecastAggregate :=
  { temp := 10, apparent := 9, humidity := 70, wind := 0, wind_kmh := 0,
    wind_direction := some 90 }

noncomputable def momentA : WeatherMoment :=
  { icon := WeatherIcon.Default, weather := "Unknown", weather_verbose := "",
    temp := 0, apparent := 0, humidity := 0, wind := 0, wind_kmh := 0,
    wind_direction := none }

/-! ## Claim C7: no directed sample → zero/absent average wind -/

/-- C7. For every input list in which no sample has a resolvable wind
direction, the aggregate's average wind speed (in both unit representations)
is 0 and the average wind direction is `none`; the division by the
directed-sample count is guarded away. -/
theorem no_directed_samples_zero_wind (data : List ForecastAggregate)
    (fin : WeatherMoment) (h : ∀ v ∈ data, v.wind_direction = none) :
    (combine_forecasts data fin).avg.wind = 0 ∧
    (combine_forecasts data fin).avg.wind_kmh = 0 ∧
    (combine_forecasts data fin).avg.wind_direction = none := by
  have hc := (foldl_combineStep_spec data combineInit).2.2.2.2.2.2.2.1
  have h0 : sumBy dirCountTerm data = 0 := by
    apply List.sum_eq_zero
    intro x hx
    obtain ⟨v, hv, rfl⟩ := List.mem_map.mp hx
    simp [dirCountTerm, h v hv]
  have hinit : combineInit.wind_count = 0 := rfl
  rw [hinit, zero_add, h0] at hc
  simp [combine_forecasts, hc]

/-- Witness for C7. -/
theorem no_directed_samples_zero_wind_witness :
    (combine_forecasts [aggNoDir] momentA).avg.wind = 0 ∧
    (combine_forecasts [aggNoDir] momentA).avg.wind_kmh = 0 ∧
    (combine_forecasts [aggNoDir] momentA).avg.wind_direction = none :=
  no_directed_samples_zero_wind [aggNoDir] momentA
    (by intro v hv; simp only [List.mem_singleton] at hv; subst hv; rfl)

/-! ## Pointwise extremes: helper lemmas -/

lemma maxStep_temp (a v : ForecastAggregate) :
    (maxStep a v).temp = Max.max a.temp v.temp := by
  simp only [maxStep]
  split <;> rfl

lemma maxStep_apparent (a v : ForecastAggregate) :
    (maxStep a v).apparent = Max.max a.apparent v.apparent := by
  simp only [maxStep]
  split <;> rfl

lemma maxStep_humidity (a v : ForecastAggregate) :
    (maxStep a v).humidity = Max.max a.humidity v.humidity := by
  simp only [maxStep]
  split <;> rfl

lemma minStep_temp (a v : ForecastAggregate) :
    (minStep a v).temp = Min.min a.temp v.temp := by
  simp only [minStep]
  split <;> rfl

lemma minStep_apparent (a v : ForecastAggregate) :
    (minStep a v).apparent = Min.min a.apparent v.apparent := by
  simp only [minStep]
  split <;> rfl

lemma minStep_humidity (a v : ForecastAggregate) :
    (minStep a v).humidity = Min.min a.humidity v.humidity := by
  simp only [minStep]
  split <;> rfl

lemma foldl_maxStep_temp (l : List ForecastAggregate) (acc : ForecastAggregate) :
    (l.foldl maxStep acc).temp = (l.map (fun v => v.temp)).foldl Max.max acc.temp := by
  induction l generalizing acc with
  | nil => rfl
  | cons v rest ih => simp [List.foldl_cons, ih, maxStep_temp]

lemma foldl_maxStep_apparent (l : List ForecastAggregate) (acc : ForecastAggregate) :
    (l.foldl maxStep acc).apparent =
      (l.map (fun v => v.apparent)).foldl Max.max acc.apparent := by
  induction l generalizing acc with
  | nil => rfl
  | cons v rest ih => simp [List.foldl_cons, ih, maxStep_apparent]

lemma foldl_maxStep_humidity (l : List ForecastAggregate) (acc : ForecastAggregate) :
    (l.foldl maxStep acc).humidity =
      (l.map (fun v => v.humidity)).foldl Max.max acc.humidity := by
  induction l generalizing acc with
  | nil => rfl
  | cons v rest ih => simp [List.foldl_cons, ih, maxStep_humidity]

lemma foldl_minStep_temp (l : List ForecastAggregate) (acc : ForecastAggregate) :
    (l.foldl minStep acc).temp = (l.map (fun v => v.temp)).foldl Min.min acc.temp := by
  induction l generalizing acc with
  | nil => rfl
  | cons v rest ih => simp [List.foldl_cons, ih, minStep_temp]

lemma foldl_minStep_apparent (l : List ForecastAggregate) (acc : ForecastAggregate) :
    (l.foldl minStep acc).apparent =
      (l.map (fun v => v.apparent)).foldl Min.min acc.apparent := by
  induction l generalizing acc with
  | nil => rfl
  | cons v rest ih => simp [List.foldl_cons, ih, minStep_apparent]

lemma foldl_minStep_humidity (l : List ForecastAggregate) (acc : ForecastAggregate) :
    (l.foldl minStep acc).humidity =
      (l.map (fun v => v.humidity)).foldl Min.min acc.humidity := by
  induction l generalizing acc with
  | nil => rfl
  | cons v rest ih => simp [List.foldl_cons, ih, minStep_humidity]

lemma le_foldl_max_init (l : List ℝ) (a : ℝ) : a ≤ l.foldl Max.max a := by
  induction l generalizing a with
  | nil => exact le_refl a
  | cons y rest ih => exact le_trans (le_max_left a y) (ih (Max.max a y))

lemma le_foldl_max_of_mem {x : ℝ} {l : List ℝ} (a : ℝ) (hx : x ∈ l) :
    x ≤ l.foldl Max.max a := by
  induction l generalizing a with
  | nil => cases hx
  | cons y rest ih =>
    rcases List.mem_cons.mp hx with rfl | h
    · exact le_trans (le_max_right a x) (le_foldl_max_init rest (Max.max a x))
    · exact ih (Max.max a y) h

lemma foldl_min_le_init (l : List ℝ) (a : ℝ) : l.foldl Min.min a ≤ a := by
  induction l generalizing a with
  | nil => exact le_refl a
  | cons y rest ih => exact le_trans (ih (Min.min a y)) (min_le_left a y)

lemma foldl_min_le_of_mem {x : ℝ} {l : List ℝ} (a : ℝ) (hx : x ∈ l) :
    l.foldl Min.min a ≤ x := by
  induction l generalizing a with
  | nil => cases hx
  | cons y rest ih =>
    rcases List.mem_cons.mp hx with rfl | h
    · exact le_trans (foldl_min_le_init rest (Min.min a x)) (min_le_right a x)
    · exact ih (Min.min a y) h

lemma avg_le_foldl_max (xs : List ℝ) (a : ℝ) (hne : xs ≠ []) :
    xs.sum / (xs.length : ℝ) ≤ xs.foldl Max.max a := by
  have hlen : 0 < (xs.length : ℝ) := by
    exact_mod_cast List.length_pos.mpr hne
  rw [div_le_iff₀ hlen]
  calc xs.sum ≤ xs.length • xs.foldl Max.max a :=
        List.sum_le_card_nsmul xs _ (fun x hx => le_foldl_max_of_mem a hx)
    _ = xs.foldl Max.max a * xs.length := by rw [nsmul_eq_mul]; ring

lemma foldl_min_le_avg (xs : List ℝ) (a : ℝ) (hne : xs ≠ []) :
    xs.foldl Min.min a ≤ xs.sum / (xs.length : ℝ) := by
  have hlen : 0 < (xs.length : ℝ) := by
    exact_mod_cast List.length_pos.mpr hne
  rw [le_div_iff₀ hlen]
  calc xs.foldl Min.min a * xs.length = xs.length • xs.foldl Min.min a := by
        rw [nsmul_eq_mul]; ring
    _ ≤ xs.sum := List.card_nsmul_le_sum xs _ (fun x hx => foldl_min_le_of_mem a hx)

/-! ## Claim C6: Min ≤ Avg ≤ Max for all scalar fields -/

/-- C6. For every non-empty input list to the aggregator (with finite
input values), the produced Forecast satisfies min ≤ avg ≤ max for
temperature, apparent temperature and humidity: the arithmetic mean lies
between the pointwise extremes. -/
theorem min_avg_max_ordered (data : List ForecastAggregate) (fin : WeatherMoment)
    (hne : data ≠ [])
    (hfin : ∀ v ∈ data,
      |v.temp| ≤ F64_MAX ∧ |v.apparent| ≤ F64_MAX ∧ |v.humidity| ≤ F64_MAX) :
    (combine_forecasts data fin).min.temp ≤ (combine_forecasts data fin).avg.temp ∧
    (combine_forecasts data fin).avg.temp ≤ (combine_forecasts data fin).max.temp ∧
    (combine_forecasts data fin).min.apparent ≤ (combine_forecasts data fin).avg.apparent ∧
    (combine_forecasts data fin).avg.apparent ≤ (combine_forecasts data fin).max.apparent ∧
    (combine_forecasts data fin).min.humidity ≤ (combine_forecasts data fin).avg.humidity ∧
    (combine_forecasts data fin).avg.humidity ≤ (combine_forecasts data fin).max.humidity := by
  obtain ⟨h1, h2, h3, -, -, -, -, -, h9, h10⟩ := foldl_combineStep_spec data combineInit
  have havgT : (combine_forecasts data fin).avg.temp =
      (data.map (fun v => v.temp)).sum / ((data.map (fun v => v.temp)).length : ℝ) := by
    show (data.foldl combineStep combineInit).temp / (data.length : ℝ) = _
    rw [h1, List.length_map]
    rw [show combineInit.temp = (0 : ℝ) from rfl, zero_add, sumBy]
  have havgA : (combine_forecasts data fin).avg.apparent =
      (data.map (fun v => v.apparent)).sum / ((data.map (fun v => v.apparent)).length : ℝ) := by
    show (data.foldl combineStep combineInit).apparent / (data.length : ℝ) = _
    rw [h2, List.length_map]
    rw [show combineInit.apparent = (0 : ℝ) from rfl, zero_add, sumBy]
  have havgH : (combine_forecasts data fin).avg.humidity =
      (data.map (fun v => v.humidity)).sum / ((data.map (fun v => v.humidity)).length : ℝ) := by
    show (data.foldl combineStep combineInit).humidity / (data.length : ℝ) = _
    rw [h3, List.length_map]
    rw [show combineInit.humidity = (0 : ℝ) from rfl, zero_add, sumBy]
  have hmax : (combine_forecasts data fin).max = data.foldl maxStep combineInit.max := h9
  have hmin : (combine_forecasts data fin).min = data.foldl minStep combineInit.min := h10
  have hneT : data.map (fun v => v.temp) ≠ [] := by simpa using hne
  have hneA : data.map (fun v => v.apparent) ≠ [] := by simpa using hne
  have hneH : data.map (fun v => v.humidity) ≠ [] := by simpa using hne
  refine ⟨?_, ?_, ?_, ?_, ?_, ?_⟩
  · rw [havgT, hmin, foldl_minStep_temp]
    exact foldl_min_le_avg _ _ hneT
  · rw [havgT, hmax, foldl_maxStep_temp]
    exact avg_le_foldl_max _ _ hneT
  · rw [havgA, hmin, foldl_minStep_apparent]
    exact foldl_min_le_avg _ _ hneA
  · rw [havgA, hmax, foldl_maxStep_apparent]
    exact avg_le_foldl_max _ _ hneA
  · rw [havgH, hmin, foldl_minStep_humidity]
    exact foldl_min_le_avg _ _ hneH
  · rw [havgH, hmax, foldl_maxStep_humidity]
    exact avg_le_foldl_max _ _ hneH

/-- Witness for C6: a concrete two-sample window. -/
theorem min_avg_max_ordered_witness :
    (combine_forecasts [aggNoDir, aggEast] momentA).min.temp ≤
      (combine_forecasts [aggNoDir, aggEast] momentA).avg.temp ∧
    (combine_forecasts [aggNoDir, aggEast] momentA).avg.temp ≤
      (combine_forecasts [aggNoDir, aggEast] momentA).max.temp ∧
    (combine_forecasts [aggNoDir, aggEast] momentA).min.apparent ≤
      (combine_forecasts [aggNoDir, aggEast] momentA).avg.apparent ∧
    (combine_forecasts [aggNoDir, aggEast] momentA).avg.apparent ≤
      (combine_forecasts [aggNoDir, aggEast] momentA).max.apparent ∧
    (combine_forecasts [aggNoDir, aggEast] momentA).min.humidity ≤
      (combine_forecasts [aggNoDir, aggEast] momentA).avg.humidity ∧
    (combine_forecasts [aggNoDir, aggEast] momentA).avg.humidity ≤
      (combine_forecasts [aggNoDir, aggEast] momentA).max.humidity :=
  min_avg_max_ordered [aggNoDir, aggEast] momentA (by simp)
    (by
      intro v hv
      rcases List.mem_cons.mp hv with rfl | hv2
      · refine ⟨?_, ?_, ?_⟩ <;> norm_num [aggNoDir, F64_MAX]
      · rcases List.mem_cons.mp hv2 with rfl | hv3
        · refine ⟨?_, ?_, ?_⟩ <;> norm_num [aggEast, F64_MAX]
        · cases hv3)

/-! ## Claims C1 and C3: the forecast window of the pipeline -/

noncomputable instance : Inhabited ApiForecast :=
  ⟨{ is_daytime := true
     temperature := { value := 0, unit_code := "" }
     relative_humidity := { value := 0, unit_code := "" }
     wind_speed := { value := 0, unit_code := "" }
     wind_direction := ""
     short_forecast := "" }⟩

/-- C1 counterexample. Aggregation on an empty window does not fail:
`forecastHours = 0` on a one-sample list produces a `WeatherResult` that
carries a `Forecast`, and `combine_forecasts` applied to the empty sample
list returns a `Forecast` value (there is no `EmptyWindowError`). -/
theorem empty_window_still_produces_forecast :
    ((get_weather 0 true [sampleSi]).bind WeatherResult.forecast).isSome = true ∧
    (combine_forecasts [] momentA).fin = momentA := by
  constructor
  · simp [get_weather]
  · rfl

/-- C1 (amended). Aggregation invoked on an empty sample sequence does
not fail with an `EmptyWindowError`: `combine_forecasts` is total and on the
empty window returns a `Forecast` with zero/absent average wind and the given
terminal moment, and `get_weather` on any non-empty sample list with the
forecast requested returns a result carrying a `Forecast` — even when
`forecastHours = 0` makes the window slice empty. -/
theorem combine_forecasts_total_on_empty_window :
    (∀ fin : WeatherMoment,
      (combine_forecasts [] fin).avg.wind = 0 ∧
      (combine_forecasts [] fin).avg.wind_kmh = 0 ∧
      (combine_forecasts [] fin).avg.wind_direction = none ∧
      (combine_forecasts [] fin).fin = fin) ∧
    (∀ (fh : ℕ) (data : List ApiForecast), data ≠ [] →
      ((get_weather fh true data).bind WeatherResult.forecast).isSome = true) := by
  constructor
  · intro fin
    refine ⟨?_, ?_, ?_, rfl⟩ <;> simp [combine_forecasts, combineInit]
  · intro fh data hne
    obtain ⟨d, rest, rfl⟩ := List.exists_cons_of_ne_nil hne
    have hidx : Min.min fh ((d :: rest).length - 1) < (d :: rest).length := by
      simp only [List.length_cons, Nat.add_sub_cancel]
      exact Nat.lt_succ_of_le (min_le_right _ _)
    have hf := List.get?_eq_get hidx
    simp [get_weather, hf]

/-- Witness for C1 (amended). -/
theorem combine_forecasts_total_on_empty_window_witness :
    ((get_weather 5 true [sampleUs]).bind WeatherResult.forecast).isSome = true :=
  combine_forecasts_total_on_empty_window.2 5 [sampleUs] (by simp)

/-- C3. For every non-empty sample list and every forecastHours, the
aggregation window is exactly the first `min(forecastHours, len(samples))`
samples, and the terminal moment is derived from the sample at index
`min(forecastHours, len(samples) − 1)`, which is always in bounds. -/
theorem window_and_terminal_clamped (fh : ℕ) (data : List ApiForecast)
    (hne : data ≠ []) :
    Min.min fh (data.length - 1) < data.length ∧
    ((data.take fh).map ApiForecast.to_aggregate).length = Min.min fh data.length ∧
    get_weather fh true data = some
      { current_weather := data.headI.to_moment
        forecast := some (combine_forecasts
          ((data.take fh).map ApiForecast.to_aggregate)
          ((data.getI (Min.min fh (data.length - 1))).to_moment)) } := by
  obtain ⟨d, rest, rfl⟩ := List.exists_cons_of_ne_nil hne
  have hidx : Min.min fh ((d :: rest).length - 1) < (d :: rest).length := by
    simp only [List.length_cons, Nat.add_sub_cancel]
    exact Nat.lt_succ_of_le (min_le_right _ _)
  refine ⟨hidx, ?_, ?_⟩
  · simp [List.length_take]
  · have hf := List.get?_eq_get hidx
    have hidx2 : Min.min fh rest.length < (d :: rest).length := by simpa using hidx
    have hgetI := List.getI_eq_getElem (d :: rest) hidx2
    simp [get_weather, hf, hgetI, List.get_eq_getElem]

/-- Witness for C3: `forecastHours = 12` with 5 samples — terminal index 4,
window of 5. -/
theorem window_and_terminal_clamped_witness :
    Min.min 12 (([sampleSi, sampleUs, sampleSi, sampleUs, sampleSi] :
        List ApiForecast).length - 1) <
      ([sampleSi, sampleUs, sampleSi, sampleUs, sampleSi] : List ApiForecast).length ∧
    ((([sampleSi, sampleUs, sampleSi, sampleUs, sampleSi] :
        List ApiForecast).take 12).map ApiForecast.to_aggregate).length =
      Min.min 12 ([sampleSi, sampleUs, sampleSi, sampleUs, sampleSi] :
        List ApiForecast).length :=
  ⟨(window_and_terminal_clamped 12 [sampleSi, sampleUs, sampleSi, sampleUs, sampleSi]
      (by simp)).1,
   (window_and_terminal_clamped 12 [sampleSi, sampleUs, sampleSi, sampleUs, sampleSi]
      (by simp)).2.1⟩

/-! ## Claim C8: extremes carry the direction of the extreme wind sample -/

lemma maxStep_wind (a v : ForecastAggregate) :
    (maxStep a v).wind = if v.wind > a.wind then v.wind else a.wind := by
  simp only [maxStep]
  split <;> rfl

lemma maxStep_wind_kmh (a v : ForecastAggregate) :
    (maxStep a v).wind_kmh = if v.wind > a.wind then v.wind_kmh else a.wind_kmh := by
  simp only [maxStep]
  split <;> rfl

lemma maxStep_wind_direction (a v : ForecastAggregate) :
    (maxStep a v).wind_direction =
      if v.wind > a.wind then v.wind_direction else a.wind_direction := by
  simp only [maxStep]
  split <;> rfl

lemma minStep_wind (a v : ForecastAggregate) :
    (minStep a v).wind = if v.wind < a.wind then v.wind else a.wind := by
  simp only [minStep]
  split <;> rfl

lemma minStep_wind_kmh (a v : ForecastAggregate) :
    (minStep a v).wind_kmh = if v.wind < a.wind then v.wind_kmh else a.wind_kmh := by
  simp only [minStep]
  split <;> rfl

lemma minStep_wind_direction (a v : ForecastAggregate) :
    (minStep a v).wind_direction =
      if v.wind < a.wind then v.wind_direction else a.wind_direction := by
  simp only [minStep]
  split <;> rfl

lemma foldl_maxStep_wind_spec (l : List ForecastAggregate) (acc : ForecastAggregate) :
    ((l.foldl maxStep acc).wind = acc.wind ∧
     (l.foldl maxStep acc).wind_kmh = acc.wind_kmh ∧
     (l.foldl maxStep acc).wind_direction = acc.wind_direction ∧
     ∀ v ∈ l, v.wind ≤ acc.wind) ∨
    (∃ i : Fin l.length,
     (l.foldl maxStep acc).wind = (l.get i).wind ∧
     (l.foldl maxStep acc).wind_kmh = (l.get i).wind_kmh ∧
     (l.foldl maxStep acc).wind_direction = (l.get i).wind_direction ∧
     (∀ v ∈ l, v.wind ≤ (l.foldl maxStep acc).wind) ∧
     acc.wind < (l.foldl maxStep acc).wind) := by
  induction l generalizing acc with
  | nil => exact Or.inl ⟨rfl, rfl, rfl, by simp⟩
  | cons v rest ih =>
    simp only [List.foldl_cons]
    by_cases hv : v.wind > acc.wind
    · have ew : (maxStep acc v).wind = v.wind := by rw [maxStep_wind, if_pos hv]
      have ek : (maxStep acc v).wind_kmh = v.wind_kmh := by
        rw [maxStep_wind_kmh, if_pos hv]
      have ed : (maxStep acc v).wind_direction = v.wind_direction := by
        rw [maxStep_wind_direction, if_pos hv]
      rcases ih (maxStep acc v) with ⟨e1, e2, e3, hall⟩ | ⟨i, e1, e2, e3, hall, hlt⟩
      · refine Or.inr ⟨⟨0, by simp⟩, ?_, ?_, ?_, ?_, ?_⟩
        · rw [e1, ew]; rfl
        · rw [e2, ek]; rfl
        · rw [e3, ed]; rfl
        · intro x hx
          rcases List.mem_cons.mp hx with rfl | hx2
          · rw [e1, ew]
          · rw [e1]; exact hall x hx2
        · rw [e1, ew]; exact hv
      · refine Or.inr ⟨i.succ, ?_, ?_, ?_, ?_, ?_⟩
        · rw [e1]; rfl
        · rw [e2]; rfl
        · rw [e3]; rfl
        · intro x hx
          rcases List.mem_cons.mp hx with rfl | hx2
          · rw [ew] at hlt
            exact le_of_lt hlt
          · exact hall x hx2
        · rw [ew] at hlt
          exact lt_trans hv hlt
    · have hle : v.wind ≤ acc.wind := not_lt.mp hv
      have ew : (maxStep acc v).wind = acc.wind := by rw [maxStep_wind, if_neg hv]
      have ek : (maxStep acc v).wind_kmh = acc.wind_kmh := by
        rw [maxStep_wind_kmh, if_neg hv]
      have ed : (maxStep acc v).wind_direction = acc.wind_direction := by
        rw [maxStep_wind_direction, if_neg hv]
      rcases ih (maxStep acc v) with ⟨e1, e2, e3, hall⟩ | ⟨i, e1, e2, e3, hall, hlt⟩
      · refine Or.inl ⟨by rw [e1, ew], by rw [e2, ek], by rw [e3, ed], ?_⟩
        intro x hx
        rcases List.mem_cons.mp hx with rfl | hx2
        · exact hle
        · have := hall x hx2
          rwa [ew] at this
      · rw [ew] at hlt
        refine Or.inr ⟨i.succ, by rw [e1]; rfl, by rw [e2]; rfl, by rw [e3]; rfl, ?_, hlt⟩
        intro x hx
        rcases List.mem_cons.mp hx with rfl | hx2
        · exact le_of_lt (lt_of_le_of_lt hle hlt)
        · exact hall x hx2

lemma foldl_minStep_wind_spec (l : List ForecastAggregate) (acc : ForecastAggregate) :
    ((l.foldl minStep acc).wind = acc.wind ∧
     (l.foldl minStep acc).wind_kmh = acc.wind_kmh ∧
     (l.foldl minStep acc).wind_direction = acc.wind_direction ∧
     ∀ v ∈ l, acc.wind ≤ v.wind) ∨
    (∃ i : Fin l.length,
     (l.foldl minStep acc).wind = (l.get i).wind ∧
     (l.foldl minStep acc).wind_kmh = (l.get i).wind_kmh ∧
     (l.foldl minStep acc).wind_direction = (l.get i).wind_direction ∧
     (∀ v ∈ l, (l.foldl minStep acc).wind ≤ v.wind) ∧
     (l.foldl minStep acc).wind < acc.wind) := by
  induction l generalizing acc with
  | nil => exact Or.inl ⟨rfl, rfl, rfl, by simp⟩
  | cons v rest ih =>
    simp only [List.foldl_cons]
    by_cases hv : v.wind < acc.wind
    · have ew : (minStep acc v).wind = v.wind := by rw [minStep_wind, if_pos hv]
      have ek : (minStep acc v).wind_kmh = v.wind_kmh := by
        rw [minStep_wind_kmh, if_pos hv]
      have ed : (minStep acc v).wind_direction = v.wind_direction := by
        rw [minStep_wind_direction, if_pos hv]
      rcases ih (minStep acc v) with ⟨e1, e2, e3, hall⟩ | ⟨i, e1, e2, e3, hall, hlt⟩
      · refine Or.inr ⟨⟨0, by simp⟩, ?_, ?_, ?_, ?_, ?_⟩
        · rw [e1, ew]; rfl
        · rw [e2, ek]; rfl
        · rw [e3, ed]; rfl
        · intro x hx
          rcases List.mem_cons.mp hx with rfl | hx2
          · rw [e1, ew]
          · rw [e1, ew]
            have := hall x hx2
            rwa [ew] at this
        · rw [e1, ew]; exact hv
      · refine Or.inr ⟨i.succ, ?_, ?_, ?_, ?_, ?_⟩
        · rw [e1]; rfl
        · rw [e2]; rfl
        · rw [e3]; rfl
        · intro x hx
          rcases List.mem_cons.mp hx with rfl | hx2
          · rw [ew] at hlt
            exact le_of_lt hlt
          · exact hall x hx2
        · rw [ew] at hlt
          exact lt_trans hlt hv
    · have hle : acc.wind ≤ v.wind := not_lt.mp hv
      have ew : (minStep acc v).wind = acc.wind := by rw [minStep_wind, if_neg hv]
      have ek : (minStep acc v).wind_kmh = acc.wind_kmh := by
        rw [minStep_wind_kmh, if_neg hv]
      have ed : (minStep acc v).wind_direction = acc.wind_direction := by
        rw [minStep_wind_direction, if_neg hv]
      rcases ih (minStep acc v) with ⟨e1, e2, e3, hall⟩ | ⟨i, e1, e2, e3, hall, hlt⟩
      · refine Or.inl ⟨by rw [e1, ew], by rw [e2, ek], by rw [e3, ed], ?_⟩
        intro x hx
        rcases List.mem_cons.mp hx with rfl | hx2
        · exact hle
        · have := hall x hx2
          rwa [ew] at this
      · rw [ew] at hlt
        refine Or.inr ⟨i.succ, by rw [e1]; rfl, by rw [e2]; rfl, by rw [e3]; rfl, ?_, hlt⟩
        intro x hx
        rcases List.mem_cons.mp hx with rfl | hx2
        · exact le_of_lt (lt_of_lt_of_le hlt hle)
        · exact hall x hx2

/-- C8. For every non-empty input list (with physically representable,
strictly finite wind speeds), the maximum (resp. minimum) record of the
Forecast carries the `wind_kmh` and `wind_direction` values of a sample that
achieves the largest (resp. smallest) wind-speed value: the direction of an
extreme is coupled to that sample. -/
theorem extremes_carry_direction (data : List ForecastAggregate)
    (fin : WeatherMoment) (hne : data ≠ [])
    (hw : ∀ v ∈ data, F64_MIN < v.wind ∧ v.wind < F64_MAX) :
    (∃ i : Fin data.length,
      (combine_forecasts data fin).max.wind = (data.get i).wind ∧
      (combine_forecasts data fin).max.wind_kmh = (data.get i).wind_kmh ∧
      (combine_forecasts data fin).max.wind_direction = (data.get i).wind_direction ∧
      ∀ v ∈ data, v.wind ≤ (data.get i).wind) ∧
    (∃ j : Fin data.length,
      (combine_forecasts data fin).min.wind = (data.get j).wind ∧
      (combine_forecasts data fin).min.wind_kmh = (data.get j).wind_kmh ∧
      (combine_forecasts data fin).min.wind_direction = (data.get j).wind_direction ∧
      ∀ v ∈ data, (data.get j).wind ≤ v.wind) := by
  obtain ⟨d, hd⟩ := List.exists_mem_of_ne_nil data hne
  obtain ⟨-, -, -, -, -, -, -, -, h9, h10⟩ := foldl_combineStep_spec data combineInit
  have emax : (combine_forecasts data fin).max = data.foldl maxStep combineInit.max := h9
  have emin : (combine_forecasts data fin).min = data.foldl minStep combineInit.min := h10
  constructor
  · rcases foldl_maxStep_wind_spec data combineInit.max with ⟨-, -, -, hall⟩ |
      ⟨i, e1, e2, e3, hall, -⟩
    · exact absurd ((hw d hd).1.trans_le (hall d hd)) (lt_irrefl _)
    · refine ⟨i, ?_, ?_, ?_, ?_⟩
      · rw [emax, e1]
      · rw [emax, e2]
      · rw [emax, e3]
      · intro v hv
        have := hall v hv
        rwa [e1] at this
  · rcases foldl_minStep_wind_spec data combineInit.min with ⟨-, -, -, hall⟩ |
      ⟨j, e1, e2, e3, hall, -⟩
    · exact absurd ((hall d hd).trans_lt (hw d hd).2) (lt_irrefl _)
    · refine ⟨j, ?_, ?_, ?_, ?_⟩
      · rw [emin, e1]
      · rw [emin, e2]
      · rw [emin, e3]
      · intro v hv
        have := hall v hv
        rwa [e1] at this

/-- Witness for C8: a concrete two-sample window. -/
theorem extremes_carry_direction_witness :
    (∃ i : Fin ([aggNoDir, aggEast] : List ForecastAggregate).length,
      (combine_forecasts [aggNoDir, aggEast] momentA).max.wind =
        (([aggNoDir, aggEast] : List ForecastAggregate).get i).wind ∧
      (combine_forecasts [aggNoDir, aggEast] momentA).max.wind_kmh =
        (([aggNoDir, aggEast] : List ForecastAggregate).get i).wind_kmh ∧
      (combine_forecasts [aggNoDir, aggEast] momentA).max.wind_direction =
        (([aggNoDir, aggEast] : List ForecastAggregate).get i).wind_direction ∧
      ∀ v ∈ ([aggNoDir, aggEast] : List ForecastAggregate),
        v.wind ≤ (([aggNoDir, aggEast] : List ForecastAggregate).get i).wind) ∧
    (∃ j : Fin ([aggNoDir, aggEast] : List ForecastAggregate).length,
      (combine_forecasts [aggNoDir, aggEast] momentA).min.wind =
        (([aggNoDir, aggEast] : List ForecastAggregate).get j).wind ∧
      (combine_forecasts [aggNoDir, aggEast] momentA).min.wind_kmh =
        (([aggNoDir, aggEast] : List ForecastAggregate).get j).wind_kmh ∧
      (combine_forecasts [aggNoDir, aggEast] momentA).min.wind_direction =
        (([aggNoDir, aggEast] : List ForecastAggregate).get j).wind_direction ∧
      ∀ v ∈ ([aggNoDir, aggEast] : List ForecastAggregate),
        (([aggNoDir, aggEast] : List ForecastAggregate).get j).wind ≤ v.wind) :=
  extremes_carry_direction [aggNoDir, aggEast] momentA (by simp)
    (by
      intro v hv
      rcases List.mem_cons.mp hv with rfl | hv2
      · constructor <;> norm_num [aggNoDir, F64_MIN, F64_MAX]
      · rcases List.mem_cons.mp hv2 with rfl | hv3
        · constructor <;> norm_num [aggEast, F64_MIN, F64_MAX]
        · cases hv3)

/-! ## Claim C2: the vector mean of the wind -/

/-- C2 counterexample: the clause "regardless of the individual speeds" fails — a
single directed sample with bearing 90° but wind speed 0 yields the zero
vector, whose `atan2` is 0, so the average direction is 0°, not 90°. -/
theorem vector_mean_zero_speed_counterexample :
    aggZeroWind.wind_direction = some 90 ∧
    (combine_forecasts [aggZeroWind] momentA).avg.wind_direction = some 0 ∧
    (0 : ℝ) ≠ 90 := by
  refine ⟨rfl, ?_, by norm_num⟩
  have hE : dirEast aggZeroWind = 0 := by
    simp [dirEast, aggZeroWind]
  have hN : dirNorth aggZeroWind = 0 := by
    simp [dirNorth, aggZeroWind]
  have hcnt : dirCountTerm aggZeroWind = 1 := rfl
  have hz : (⟨(0 : ℝ), (0 : ℝ)⟩ : ℂ) = 0 := by
    apply Complex.ext <;> simp
  have hatan : atan2 0 0 = 0 := by rw [atan2, hz, Complex.arg_zero]
  have hdeg : toDegrees 0 = 0 := by simp [toDegrees]
  have hrem : remEuclid 0 360 = 0 := by simp [remEuclid]
  simp [combine_forecasts, combineStep, combineInit, hE, hN, hcnt, hatan, hdeg, hrem]

lemma sumBy_dirCountTerm (data : List ForecastAggregate) :
    sumBy dirCountTerm data =
      (data.countP (fun v => v.wind_direction.isSome) : ℝ) := by
  induction data with
  | nil => simp [sumBy]
  | cons v rest ih =>
    rw [sumBy, List.map_cons, List.sum_cons]
    rw [show (List.map dirCountTerm rest).sum = sumBy dirCountTerm rest from rfl, ih,
      List.countP_cons]
    cases h : v.wind_direction <;> simp [dirCountTerm, h] <;> push_cast <;> ring

lemma sum_pos_of_mem (l : List ℝ) (hnn : ∀ x ∈ l, 0 ≤ x) (hex : ∃ x ∈ l, 0 < x) :
    0 < l.sum := by
  induction l with
  | nil =>
    obtain ⟨x, hx, -⟩ := hex
    cases hx
  | cons y rest ih =>
    rw [List.sum_cons]
    obtain ⟨x, hx, hxpos⟩ := hex
    rcases List.mem_cons.mp hx with rfl | hx2
    · have h0 : 0 ≤ rest.sum :=
        List.sum_nonneg (fun z hz => hnn z (List.mem_cons_of_mem _ hz))
      linarith
    · have h0 : 0 ≤ y := hnn y (List.mem_cons_self y rest)
      have hrest := ih (fun z hz => hnn z (List.mem_cons_of_mem _ hz)) ⟨x, hx2, hxpos⟩
      linarith

lemma sum_dirEast_same_bearing (θ : ℝ) (data : List ForecastAggregate)
    (h : ∀ v ∈ data, v.wind_direction = none ∨ v.wind_direction = some θ) :
    sumBy dirEast data =
      Real.sin (toRadians θ) * sumBy (fun v => dirCountTerm v * v.wind) data := by
  induction data with
  | nil => simp [sumBy]
  | cons v rest ih =>
    have hrest := ih (fun x hx => h x (List.mem_cons_of_mem _ hx))
    simp only [sumBy, List.map_cons, List.sum_cons] at hrest ⊢
    rw [hrest]
    rcases h v (List.mem_cons_self v rest) with hv | hv <;>
      simp [dirEast, dirCountTerm, hv] <;> ring

lemma sum_dirNorth_same_bearing (θ : ℝ) (data : List ForecastAggregate)
    (h : ∀ v ∈ data, v.wind_direction = none ∨ v.wind_direction = some θ) :
    sumBy dirNorth data =
      Real.cos (toRadians θ) * sumBy (fun v => dirCountTerm v * v.wind) data := by
  induction data with
  | nil => simp [sumBy]
  | cons v rest ih =>
    have hrest := ih (fun x hx => h x (List.mem_cons_of_mem _ hx))
    simp only [sumBy, List.map_cons, List.sum_cons] at hrest ⊢
    rw [hrest]
    rcases h v (List.mem_cons_self v rest) with hv | hv <;>
      simp [dirNorth, dirCountTerm, hv] <;> ring

lemma remEuclid_toDegrees_atan2 (θ W : ℝ) (hW : 0 < W) :
    remEuclid (toDegrees (atan2 (Real.sin (toRadians θ) * W)
      (Real.cos (toRadians θ) * W))) 360 = remEuclid θ 360 := by
  obtain ⟨N, hN, -⟩ :=
    existsUnique_add_zsmul_mem_Ioc Real.two_pi_pos (toRadians θ) (-π)
  rw [zsmul_eq_mul] at hN
  rw [show -π + 2 * π = π by ring] at hN
  have hcos : Real.cos (toRadians θ) = Real.cos (toRadians θ + N * (2 * π)) :=
    (Real.cos_add_int_mul_two_pi (toRadians θ) N).symm
  have hsin : Real.sin (toRadians θ) = Real.sin (toRadians θ + N * (2 * π)) :=
    (Real.sin_add_int_mul_two_pi (toRadians θ) N).symm
  have harg : atan2 (Real.sin (toRadians θ) * W) (Real.cos (toRadians θ) * W) =
      toRadians θ + N * (2 * π) := by
    rw [atan2, Complex.mk_eq_add_mul_I]
    have hz : ((Real.cos (toRadians θ) * W : ℝ) : ℂ) +
        ((Real.sin (toRadians θ) * W : ℝ) : ℂ) * Complex.I =
        (W : ℂ) * (((Real.cos (toRadians θ + N * (2 * π)) : ℝ) : ℂ) +
          ((Real.sin (toRadians θ + N * (2 * π)) : ℝ) : ℂ) * Complex.I) := by
      rw [← hcos, ← hsin]
      push_cast
      ring
    rw [hz, Complex.ofReal_cos, Complex.ofReal_sin]
    exact Complex.arg_mul_cos_add_sin_mul_I hW hN
  rw [harg]
  have hdeg : toDegrees (toRadians θ + N * (2 * π)) = θ + N * 360 := by
    rw [toDegrees, toRadians]
    field_simp
    ring
  rw [hdeg, remEuclid, remEuclid]
  rw [show (θ + N * 360) / 360 = θ / 360 + N by ring]
  rw [Int.floor_add_int]
  push_cast
  ring

/-- C2 (amended). For every input list with at least one sample having a
resolvable wind direction, the aggregate's average wind speed (in both unit
representations) equals `hypot(east_sum, north_sum)` divided by the count of
directed samples, and the average direction equals `atan2(east_sum,
north_sum)` converted to degrees and normalized into `[0, 360)`; in
particular, if every directed sample shares the same bearing θ and the wind
speeds are nonnegative with at least one directed sample of positive speed,
the average direction equals θ mod 360 exactly. -/
theorem wind_vector_mean (data : List ForecastAggregate) (fin : WeatherMoment)
    (hcount : 0 < data.countP (fun v => (v.wind_direction).isSome)) :
    (combine_forecasts data fin).avg.wind =
      hypot (sumBy dirEast data) (sumBy dirNorth data) /
        (data.countP (fun v => (v.wind_direction).isSome) : ℝ) ∧
    (combine_forecasts data fin).avg.wind_kmh =
      hypot (sumBy dirEastKmh data) (sumBy dirNorthKmh data) /
        (data.countP (fun v => (v.wind_direction).isSome) : ℝ) ∧
    (combine_forecasts data fin).avg.wind_direction =
      some (remEuclid (toDegrees (atan2 (sumBy dirEast data) (sumBy dirNorth data))) 360) ∧
    ∀ θ : ℝ,
      (∀ v ∈ data, v.wind_direction = none ∨ v.wind_direction = some θ) →
      (∀ v ∈ data, 0 ≤ v.wind) →
      (∃ v ∈ data, v.wind_direction = some θ ∧ 0 < v.wind) →
      (combine_forecasts data fin).avg.wind_direction = some (remEuclid θ 360) := by
  obtain ⟨-, -, -, h4, h5, h6, h7, h8, -, -⟩ := foldl_combineStep_spec data combineInit
  rw [show combineInit.wind_north = (0 : ℝ) from rfl, zero_add] at h4
  rw [show combineInit.wind_east = (0 : ℝ) from rfl, zero_add] at h5
  rw [show combineInit.wind_kmh_north = (0 : ℝ) from rfl, zero_add] at h6
  rw [show combineInit.wind_kmh_east = (0 : ℝ) from rfl, zero_add] at h7
  rw [show combineInit.wind_count = (0 : ℝ) from rfl, zero_add, sumBy_dirCountTerm] at h8
  have hne0 : (data.foldl combineStep combineInit).wind_count ≠ 0 := by
    rw [h8]
    exact_mod_cast hcount.ne'
  have e1 : (combine_forecasts data fin).avg.wind =
      hypot (data.foldl combineStep combineInit).wind_east
        (data.foldl combineStep combineInit).wind_north /
        (data.foldl combineStep combineInit).wind_count := by
    simp [combine_forecasts, hne0]
  have e2 : (combine_forecasts data fin).avg.wind_kmh =
      hypot (data.foldl combineStep combineInit).wind_kmh_east
        (data.foldl combineStep combineInit).wind_kmh_north /
        (data.foldl combineStep combineInit).wind_count := by
    simp [combine_forecasts, hne0]
  have e3 : (combine_forecasts data fin).avg.wind_direction =
      some (remEuclid (toDegrees (atan2 (data.foldl combineStep combineInit).wind_east
        (data.foldl combineStep combineInit).wind_north)) 360) := by
    simp [combine_forecasts, hne0]
  refine ⟨?_, ?_, ?_, ?_⟩
  · rw [e1, h5, h4, h8]
  · rw [e2, h7, h6, h8]
  · rw [e3, h5, h4]
  · intro θ hall hnn hex
    rw [e3, h5, h4]
    rw [sum_dirEast_same_bearing θ data hall, sum_dirNorth_same_bearing θ data hall]
    congr 1
    apply remEuclid_toDegrees_atan2
    rw [sumBy]
    apply sum_pos_of_mem
    · intro x hx
      obtain ⟨v, hv, rfl⟩ := List.mem_map.mp hx
      cases hd : v.wind_direction with
      | none => simp [dirCountTerm, hd]
      | some d => simpa [dirCountTerm, hd] using hnn v hv
    · obtain ⟨v, hv, hdir, hpos⟩ := hex
      refine ⟨dirCountTerm v * v.wind, List.mem_map_of_mem _ hv, ?_⟩
      simpa [dirCountTerm, hdir] using hpos

/-- Witness for C2 (amended): one undirected and one directed (90°, speed 5)
sample. -/
theorem wind_vector_mean_witness :
    (combine_forecasts [aggNoDir, aggEast] momentA).avg.wind_direction =
      some (remEuclid 90 360) :=
  (wind_vector_mean [aggNoDir, aggEast] momentA (by decide)).2.2.2 90
    (by
      intro v hv
      rcases List.mem_cons.mp hv with rfl | hv2
      · exact Or.inl rfl
      · rcases List.mem_cons.mp hv2 with rfl | hv3
        · exact Or.inr rfl
        · cases hv3)
    (by
      intro v hv
      rcases List.mem_cons.mp hv with rfl | hv2
      · norm_num [aggNoDir]
      · rcases List.mem_cons.mp hv2 with rfl | hv3
        · norm_num [aggEast]
        · cases hv3)
    ⟨aggEast, by simp, rfl, by norm_num [aggEast]⟩
